import Mathlib

/-!
Shallow embedding of the LazyLibrarian post-processing pipeline
(`lazylibrarian/postprocess.py`, `lib/deluge_client/client.py`) and proofs of
the specification claims about it.
-/

/-- A row of the `wanted` table as used by `postprocess.py`: the fields the
pipeline reads or writes.  `AuxInfo` is `""` when the SQL value is NULL. -/
structure WantedRow where
  NZBurl : String
  BookID : String
  AuxInfo : String
  Status : String
  NZBDate : String
  deriving DecidableEq, Repr

/-- A row of the `books` table: the status columns touched by the pipeline
(`status` for eBooks, `audiostatus` for AudioBooks). -/
structure BookRow where
  BookID : String
  status : String
  audiostatus : String
  deriving DecidableEq, Repr

/-- The request/library store mutated by one reconciliation pass. -/
structure DBState where
  wanted : List WantedRow
  books : List BookRow
  deriving DecidableEq, Repr

/-- Modelled from the spec: the persistence layer's `upsert` (the database
module is not under src/).  Per spec section 5, mutations are "scoped,
idempotent upserts keyed by stable identifiers": every row matching the
control values is updated; when none matches, a row built from control plus
new values is inserted. -/
def upsertRows (tbl : List WantedRow) (ctrl : WantedRow → Bool)
    (upd : WantedRow → WantedRow) (ins : WantedRow) : List WantedRow :=
  if tbl.any ctrl then tbl.map (fun r => if ctrl r then upd r else r) else tbl ++ [ins]

/-- Derivation of the media kind from `AuxInfo` (postprocess.py lines 369-374
and 749-754): anything other than `AudioBook`/`eBook` is `eBook` when empty,
otherwise a magazine issue tag. -/
def bookTypeOf (aux : String) : String :=
  if aux == "AudioBook" then "AudioBook"
  else if aux == "eBook" then "eBook"
  else if aux == "" then "eBook"
  else "Magazine"

namespace processDir

/-- Commit-success update of the `wanted` table (postprocess.py lines 574-578):
upsert keyed by the request's `NZBurl` and its current `Snatched` status,
setting `Processed` and the processing timestamp. -/
def markProcessed (tbl : List WantedRow) (url nowT : String) : List WantedRow :=
  upsertRows tbl (fun r => r.NZBurl == url && r.Status == "Snatched")
    (fun r => { r with Status := "Processed", NZBDate := nowT })
    { NZBurl := url, BookID := "", AuxInfo := "", Status := "Processed", NZBDate := nowT }

/-- Commit-failure update of the `wanted` table (postprocess.py lines 676-678):
upsert keyed by `NZBurl` and current `Snatched` status, setting `Failed` and a
failure timestamp. -/
def markFailed (tbl : List WantedRow) (url nowT : String) : List WantedRow :=
  upsertRows tbl (fun r => r.NZBurl == url && r.Status == "Snatched")
    (fun r => { r with Status := "Failed", NZBDate := nowT })
    { NZBurl := url, BookID := "", AuxInfo := "", Status := "Failed", NZBDate := nowT }

/-- Library-item status revert on commit failure (postprocess.py lines 679-684):
`books.status` is set to `Wanted` for eBooks, `books.audiostatus` for
AudioBooks, keyed by `BookID` alone, with no guard on the current value. -/
def revertBooks (books : List BookRow) (bookid book_type : String) : List BookRow :=
  if book_type == "eBook" then
    books.map (fun b => if b.BookID == bookid then { b with status := "Wanted" } else b)
  else if book_type == "AudioBook" then
    books.map (fun b => if b.BookID == bookid then { b with audiostatus := "Wanted" } else b)
  else books

/-- Outcome of handling one snatched request inside a pass:
no directory entry cleared the match threshold (`continue`, lines 561-569);
the BookID matched nothing in the database (lines 555-560); or
`processDestination` ran and returned `success` (lines 571-699). -/
inductive ReqOutcome where
  | noMatch
  | notInDB
  | commit (success : Bool)
  deriving DecidableEq, Repr

/-- The database effect of one request's handling in `processDir`
(postprocess.py lines 555-699), restricted to the `wanted` and `books` tables:
`noMatch` leaves the store untouched; `notInDB` fails the snatched rows for the
BookID; a commit outcome marks the request's row `Processed` or `Failed` by
`NZBurl`, reverting the library item's status on failure. -/
def handleOutcome (st : DBState) (book : WantedRow) (book_type nowT : String)
    (out : ReqOutcome) : DBState :=
  match out with
  | .noMatch => st
  | .notInDB =>
      let ins : WantedRow :=
        { NZBurl := "", BookID := book.BookID, AuxInfo := "", Status := "Failed",
          NZBDate := nowT }
      let w := upsertRows st.wanted
        (fun r => r.BookID == book.BookID && r.Status == "Snatched")
        (fun r => { r with Status := "Failed", NZBDate := nowT }) ins
      { st with wanted := w }
  | .commit true => { st with wanted := markProcessed st.wanted book.NZBurl nowT }
  | .commit false =>
      { wanted := markFailed st.wanted book.NZBurl nowT,
        books := revertBooks st.books book.BookID book_type }

end processDir

namespace import_book

/-- Success update of the `wanted` table in `import_book` (postprocess.py lines
920-928): `was_snatched` is the non-emptiness of the rows with this BookID and
`Snatched` status (line 865); when non-empty, the `Processed` upsert is keyed
by `BookID` alone. -/
def markProcessedByBookID (tbl : List WantedRow) (bookid nowT : String) : List WantedRow :=
  if tbl.any (fun r => r.BookID == bookid && r.Status == "Snatched") then
    upsertRows tbl (fun r => r.BookID == bookid)
      (fun r => { r with Status := "Processed", NZBDate := nowT })
      { NZBurl := "", BookID := bookid, AuxInfo := "", Status := "Processed", NZBDate := nowT }
  else tbl

end import_book

namespace staleSweep

/-- Age in whole hours of a snatched record (postprocess.py lines 757-763):
the difference between the current time and the parsed `NZBdate`, divided by
3600; a timestamp that fails to parse counts as age 0.  (`time.time()` is in
seconds; a snatch timestamp in the future gives a non-positive difference,
modelled by truncated subtraction, which fails the threshold the same way the
source's negative `hours` does for any configured age of at least 1.) -/
def staleHours (nowT : Nat) (snatchT : Option Nat) : Nat :=
  match snatchT with
  | some t => (nowT - t) / 3600
  | none => 0

/-- One record's handling in the stale-task sweep (postprocess.py lines
745-779).  `taskAge` is `CONFIG TASK_AGE` (the sweep only runs when it is
truthy).  When the record's age reaches the threshold and its BookID is not
the literal `"unknown"`: the library item's status for the media kind reverts
to `Wanted` only where it is still `Snatched`, every wanted row with the
BookID is set `Failed`, and `delete_task` is invoked (the returned Bool);
otherwise nothing happens.  `adapterResult` is the value `delete_task` would
return — success, or False when the backend client raised (its exceptions are
caught, postprocess.py lines 837-839) — which line 779 discards, so it feeds
into nothing. -/
def sweepOne (st : DBState) (r : WantedRow) (taskAge nowT : Nat)
    (snatchT : Option Nat) (adapterResult : Bool) : DBState × Bool :=
  let book_type := bookTypeOf r.AuxInfo
  let hours := staleHours nowT snatchT
  if taskAge ≠ 0 ∧ hours ≥ taskAge then
    if r.BookID ≠ "unknown" then
      let books :=
        if book_type == "eBook" then
          st.books.map (fun b =>
            if b.BookID == r.BookID && b.status == "Snatched"
            then { b with status := "Wanted" } else b)
        else if book_type == "AudioBook" then
          st.books.map (fun b =>
            if b.BookID == r.BookID && b.audiostatus == "Snatched"
            then { b with audiostatus := "Wanted" } else b)
        else st.books
      let wanted := st.wanted.map (fun w =>
        if w.BookID == r.BookID then { w with Status := "Failed" } else w)
      (⟨wanted, books⟩, true)
    else (st, false)
  else (st, false)

end staleSweep

namespace fsq

/-- One entry of a directory listing: its name, whether it is a directory, and
an abstract identifier standing for its whole subtree content. -/
structure Entry where
  name : String
  isdir : Bool
  content : Nat
  deriving DecidableEq, Repr

/-- Directory-listing lookup by name (`os.path.isdir`, `os.path.exists`). -/
def lookupName (fs : List Entry) (n : String) : Option Entry :=
  fs.find? (fun e => e.name == n)

/-- `shutil.rmtree`: remove the named entry together with its subtree. -/
def rmtree (fs : List Entry) (n : String) : List Entry :=
  fs.filter (fun e => e.name != n)

/-- `shutil.move src dst`: when `dst` exists as a directory the source is
moved *inside* it (the source vanishes into the surviving `dst` subtree);
when `dst` exists as a file the rename overwrites it; otherwise a plain
rename.  A missing source raises, which the callers catch, leaving the
listing unchanged. -/
def move (fs : List Entry) (src dst : String) : List Entry :=
  match lookupName fs src with
  | none => fs
  | some e =>
    match lookupName fs dst with
    | some d =>
      if d.isdir then rmtree fs src
      else rmtree (rmtree fs src) dst ++ [{ e with name := dst }]
    | none => rmtree fs src ++ [{ e with name := dst }]

/-- Quarantine handling after a failed commit (postprocess.py lines 686-700,
and identically lines 961-971): a pre-existing *directory* named
`pp_path + ".fail"` is removed first, then the failed source is renamed to
that name. -/
def quarantine (fs : List Entry) (pp_path : String) : List Entry :=
  let failname := pp_path ++ ".fail"
  let fs1 :=
    match lookupName fs failname with
    | some d => if d.isdir then rmtree fs failname else fs
    | none => fs
  move fs1 pp_path failname

end fsq

namespace unpack_archive

/-- What `unpack_archive` finds at `pp_path`: not a regular file
(`os.path.isfile` false, covering directories and nonexistent paths); a
zip, tar or rar archive with its entry-name list (content sniffing via
`is_zipfile` / `is_tarfile` / `is_rarfile`); or an unrecognised format. -/
inductive ArchiveKind where
  | notFile
  | zip (entries : List String)
  | tar (entries : List String)
  | rar (entries : List String)
  | unrecognized
  deriving DecidableEq, Repr

/-- Result of `unpack_archive`: the returned directory name (empty string when
nothing was unpacked), the entries extracted into it in order, and how many
times `os.makedirs` ran. -/
structure UnpackResult where
  targetdir : String
  extracted : List String
  mkdirCount : Nat
  deriving DecidableEq, Repr

/-- The per-entry loop body shared verbatim by the zip/tar/rar branches
(postprocess.py lines 200-221, 228-249, 256-277): a payload entry lazily
names the target directory, creates it when it does not exist yet, and is
extracted into it; any other entry is only logged and skipped.  The Bool
component records whether the target directory exists on disk.  The model
takes `os.makedirs` to succeed (its failure branch returns early). -/
def step (download_dir title : String) (isPayload : String → Bool)
    (st : UnpackResult × Bool) (item : String) : UnpackResult × Bool :=
  if isPayload item then
    let r := st.1
    let td := if r.targetdir = "" then download_dir ++ "/" ++ title ++ ".unpack" else r.targetdir
    let mk := if st.2 then r.mkdirCount else r.mkdirCount + 1
    (⟨td, r.extracted ++ [item], mk⟩, true)
  else st

/-- The entry loop of one recognised-archive branch over its name list. -/
def runEntries (download_dir title : String) (isPayload : String → Bool)
    (dirPreExists : Bool) (entries : List String) : UnpackResult × Bool :=
  entries.foldl (step download_dir title isPayload) (⟨"", [], 0⟩, dirPreExists)

/-- `unpack_archive` (postprocess.py lines 181-280) over the archive
abstraction: payload entries of a regular-file zip/tar/rar archive are
extracted; anything else returns the empty string with nothing written.
`isPayload` stands for the `is_valid_booktype` book/audiobook/mag
disjunction applied to the entry name. -/
def unpack (kind : ArchiveKind) (download_dir title : String)
    (isPayload : String → Bool) (dirPreExists : Bool) : UnpackResult :=
  match kind with
  | .notFile => ⟨"", [], 0⟩
  | .unrecognized => ⟨"", [], 0⟩
  | .zip es => (runEntries download_dir title isPayload dirPreExists es).1
  | .tar es => (runEntries download_dir title isPayload dirPreExists es).1
  | .rar es => (runEntries download_dir title isPayload dirPreExists es).1

/-- The entry lists of the recognised archive branches, `none` for inputs on
which `unpack_archive` never enumerates entries. -/
def entriesOf : ArchiveKind → Option (List String)
  | .zip es => some es
  | .tar es => some es
  | .rar es => some es
  | .notFile => none
  | .unrecognized => none

end unpack_archive

/-- ASCII lowercasing of Python's `str.lower` for a single character. -/
def charLower (c : Char) : Char :=
  if 65 ≤ c.toNat && c.toNat ≤ 90 then Char.ofNat (c.toNat + 32) else c

/-- ASCII lowercasing of Python's `str.lower`. -/
def strLower (s : String) : String :=
  String.mk (s.data.map charLower)

namespace procDest

/-- The configuration read by `processDestination`: `ONE_FORMAT`, and the
format lists `EBOOK_TYPE` / `AUDIOBOOK_TYPE` / `MAG_TYPE`. -/
structure Config where
  one_format : Bool
  ebook_type : List String
  audiobook_type : List String
  mag_type : List String
  deriving DecidableEq, Repr

/-- The extension part of `os.path.splitext` for a bare filename: the suffix
from the last dot on, unless every character before that dot is itself a
dot. -/
def extnOf (s : String) : String :=
  let cs := s.data
  match cs.reverse.findIdx? (fun c => c == '.') with
  | none => ""
  | some k =>
    let i := cs.length - 1 - k
    if (cs.take i).any (fun c => c != '.') then String.mk (cs.drop i) else ""

/-- Python's `lstrip` with a dot argument: drop leading dots. -/
def lstripDot (s : String) : String :=
  String.mk (s.data.dropWhile (fun c => c == '.'))

/-- Modelled from the spec: `formatter.is_valid_booktype` is not under src/;
per spec section 4.4 it is "the media kind's type predicate", modelled as the
filename's extension (dot-stripped, lowercased) being in the configured
format list for the kind. -/
def is_valid_booktype (cfg : Config) (fname booktype : String) : Bool :=
  let e := strLower (lstripDot (extnOf fname))
  if booktype == "mag" then cfg.mag_type.contains e
  else if booktype == "audiobook" then cfg.audiobook_type.contains e
  else cfg.ebook_type.contains e

/-- The ONE_FORMAT preferred-format scan (postprocess.py lines 1053-1063): for
an ebook with ONE_FORMAT set, the first format in `EBOOK_TYPE` that some
source file carries as its (dot-stripped, lowercased) extension; otherwise
the empty string. -/
def bestmatchOf (cfg : Config) (booktype : String) (files : List String) : String :=
  if booktype == "ebook" && cfg.one_format then
    match cfg.ebook_type.find? (fun btype => files.any (fun fname =>
        let extn := lstripDot (extnOf fname)
        extn != "" && strLower extn == btype)) with
    | some b => b
    | none => ""
  else ""

/-- Result of `processDestination`: the returned pair plus the filesystem
operations (copy/move/delete/mkdir) it performed along the way. -/
structure Outcome where
  success : Bool
  message : String
  actions : List String
  deriving DecidableEq, Repr

/-- The source-selection prologue of `processDestination` (postprocess.py
lines 1043-1078), with everything after the selection check abstracted as
`rest`: a magazine has no `bookname` so its booktype is forced to `mag`
(lines 1048-1051); when the ONE_FORMAT scan finds nothing and no file
satisfies the media kind's type predicate, the function returns failure with
a human-readable message before performing any filesystem action; otherwise
the rest of the function runs. -/
def processDestination (cfg : Config) (pp_path : String) (files : List String)
    (bookname : Option String) (booktypeIn : String) (rest : Outcome) : Outcome :=
  let booktype := strLower (if bookname.isNone then "mag" else booktypeIn)
  let bestmatch := bestmatchOf cfg booktype files
  let m : Bool :=
    if bestmatch != "" then true
    else files.any (fun f => is_valid_booktype cfg f booktype)
  if !m then
    { success := false,
      message := "Unable to locate a valid filetype (" ++ booktype ++ ") in " ++ pp_path
        ++ ", leaving for manual processing",
      actions := [] }
  else rest

end procDest

namespace DelugeRPC

/-- Message-type tags (lib/deluge_client/client.py lines 9-11). -/
def RPC_RESPONSE : Nat := 1

/-- Error message-type tag. -/
def RPC_ERROR : Nat := 2

/-- Event message-type tag. -/
def RPC_EVENT : Nat := 3

/-- A decoded incoming message, after `loads` and the two `pop(0)` calls of
`DelugeRPCClient.call` (client.py lines 86-88): the message type, the
sequence id, and the remaining payload elements. -/
structure Message (V : Type) where
  msgType : Nat
  requestId : Nat
  rest : List V
  deriving DecidableEq, Repr

/-- How `call` ends: an exception propagates to the caller, or the call
returns a value; `returned none` models Python's implicit `None` when the
message type matches neither branch (an Event). -/
inductive CallResult (V : Type) where
  | raised (reason : String)
  | returned (v : Option V)
  deriving DecidableEq, Repr

/-- The dispatch tail of `DelugeRPCClient.call` (client.py lines 90-95): an
Error message raises; a Response message returns `data[0]` (itself an
IndexError — hence raised — if the payload is empty); anything else falls
off the end of the function. -/
def dispatch {V : Type} (m : Message V) : CallResult V :=
  if m.msgType == RPC_ERROR then .raised "RPC error response"
  else if m.msgType == RPC_RESPONSE then
    match m.rest with
    | [] => .raised "IndexError"
    | v :: _ => .returned (some v)
  else .returned none

end DelugeRPC

namespace fuzz

/-- The `" LL.("` tag marker of postprocess.py line 390, as characters. -/
def marker : List Char := [' ', 'L', 'L', '.', '(']

/-- Python `split(' LL.(')[0]` over characters: everything from the first
occurrence of the marker on is dropped (postprocess.py lines 390-391). -/
def truncAtMarker : List Char → List Char
  | [] => []
  | c :: cs => if marker.isPrefixOf (c :: cs) then [] else c :: truncAtMarker cs

/-- Python `replace('_', ' ')` over characters (postprocess.py lines
390-391). -/
def underscoreToSpace (cs : List Char) : List Char :=
  cs.map (fun c => if c == '_' then ' ' else c)

/-- Title normalisation before scoring (postprocess.py lines 388-391):
truncate at the `" LL.("` tag marker and replace each underscore with a
space. -/
def normalize (s : String) : List Char :=
  underscoreToSpace (truncAtMarker s.data)

/-- Accumulator loop of Python `str.split()`: space-separated words, empty
pieces dropped. -/
def wordsAux : List Char → List Char → List (List Char)
  | [], acc => if acc.isEmpty then [] else [acc.reverse]
  | c :: cs, acc =>
    if c == ' ' then
      if acc.isEmpty then wordsAux cs [] else acc.reverse :: wordsAux cs []
    else wordsAux cs (c :: acc)

/-- Whitespace tokenisation as in Python's `str.split()`. -/
def tokens (cs : List Char) : List (List Char) :=
  wordsAux cs []

/-- Lexicographic token comparison by character code, the sort order behind
fuzzywuzzy's sorted token sets. -/
def lexLe : List Char → List Char → Bool
  | [], _ => true
  | _ :: _, [] => false
  | a :: as, b :: bs =>
    if a.toNat < b.toNat then true
    else if b.toNat < a.toNat then false
    else lexLe as bs

/-- Canonically sorted token list. -/
def sortToks (l : List (List Char)) : List (List Char) :=
  List.insertionSort (fun x y => lexLe x y = true) l

/-- Sorted deduplicated token list: fuzzywuzzy's token *set* in canonical
order. -/
def sortedTokenSet (cs : List Char) : List (List Char) :=
  sortToks (tokens cs).dedup

/-- Modelled from the spec: Levenshtein edit distance on character lists, the
string-similarity core of the scorer (lib/fuzzywuzzy is not under src/). -/
def lev : List Char → List Char → Nat
  | [], l2 => l2.length
  | a :: l1, [] => (a :: l1).length
  | a :: l1, b :: l2 =>
    if a = b then lev l1 l2
    else 1 + min (lev l1 (b :: l2)) (min (lev (a :: l1) l2) (lev l1 l2))

/-- Modelled from the spec: the 0-100 similarity ratio of two strings, the
edit distance normalised by the total length (100 for equal strings). -/
def ratio (a b : List Char) : Nat :=
  let T := a.length + b.length
  if T = 0 then 100 else (T - lev a b) * 100 / T

/-- Space-joined word list, as fuzzywuzzy rebuilds comparable strings. -/
def joinSpace : List (List Char) → List Char
  | [] => []
  | [w] => w
  | w :: ws => w ++ (' ' :: joinSpace ws)

/-- Modelled from the spec: `fuzz.token_set_ratio` (lib/fuzzywuzzy is not
under src/) — "token-set style similarity (order-independent multiset overlap
of words)" (spec section 4.1).  Both sides become sorted deduplicated word
sets; the sorted intersection, alone and with each side's remainder appended,
gives three strings whose best pairwise ratio is the score. -/
def token_set_ratio (x y : List Char) : Nat :=
  let t1 := sortedTokenSet x
  let t2 := sortedTokenSet y
  let inter := t1.filter (fun w => t2.contains w)
  let d1 := t1.filter (fun w => !t2.contains w)
  let d2 := t2.filter (fun w => !t1.contains w)
  let s0 := joinSpace inter
  let sa := joinSpace (inter ++ d1)
  let sb := joinSpace (inter ++ d2)
  max (ratio s0 sa) (max (ratio s0 sb) (ratio sa sb))

/-- The fuzzy match score of postprocess.py lines 388-392: `token_set_ratio`
over the normalised request title and candidate name. -/
def score (matchtitle fname : String) : Nat :=
  token_set_ratio (normalize matchtitle) (normalize fname)

end fuzz

/-! ## Helper lemmas -/

theorem beq_and_status_self (r : WantedRow) (hs : r.Status = "Snatched") :
    (r.BookID == r.BookID && r.Status == "Snatched") = true := by
  simp [hs]

theorem beq_and_url_self (r : WantedRow) (hs : r.Status = "Snatched") :
    (r.NZBurl == r.NZBurl && r.Status == "Snatched") = true := by
  simp [hs]

/-! ## C1: status after one pass -/

/-- C1: for every request handled in one reconciliation pass of `processDir`,
its row's status after the pass is one of Snatched, Processed, Failed, and a
row is set to `Processed` only when `processDestination` returned success for
that request in that pass. -/
theorem processDir_status_after_pass (st : DBState) (r : WantedRow) (bt nowT : String)
    (out : processDir.ReqOutcome) (hr : r ∈ st.wanted) (hs : r.Status = "Snatched") :
    ∃ f : WantedRow → WantedRow,
      (processDir.handleOutcome st r bt nowT out).wanted = st.wanted.map f ∧
      ((f r).Status = "Snatched" ∨ (f r).Status = "Processed" ∨ (f r).Status = "Failed") ∧
      ∀ x : WantedRow, (f x).Status = "Processed" →
        x.Status = "Processed" ∨ out = .commit true := by
  cases out with
  | noMatch =>
      refine ⟨id, by simp [processDir.handleOutcome], Or.inl (by simpa using hs), ?_⟩
      intro x hx
      exact Or.inl (by simpa using hx)
  | notInDB =>
      have hany : st.wanted.any (fun x => x.BookID == r.BookID && x.Status == "Snatched") = true :=
        List.any_eq_true.mpr ⟨r, hr, beq_and_status_self r hs⟩
      refine ⟨fun x => if x.BookID == r.BookID && x.Status == "Snatched"
        then { x with Status := "Failed", NZBDate := nowT } else x, ?_, ?_, ?_⟩
      · simp [processDir.handleOutcome, upsertRows, hany]
      · refine Or.inr (Or.inr ?_)
        simp [hs]
      · intro x hx
        by_cases h : (x.BookID == r.BookID && x.Status == "Snatched") = true
        · simp [h] at hx
        · simp [h] at hx
          exact Or.inl hx
  | commit success =>
      cases success with
      | true =>
          have hany : st.wanted.any
              (fun x => x.NZBurl == r.NZBurl && x.Status == "Snatched") = true :=
            List.any_eq_true.mpr ⟨r, hr, beq_and_url_self r hs⟩
          refine ⟨fun x => if x.NZBurl == r.NZBurl && x.Status == "Snatched"
            then { x with Status := "Processed", NZBDate := nowT } else x, ?_, ?_, ?_⟩
          · simp [processDir.handleOutcome, processDir.markProcessed, upsertRows, hany]
          · refine Or.inr (Or.inl ?_)
            simp [hs]
          · intro x _
            exact Or.inr rfl
      | false =>
          have hany : st.wanted.any
              (fun x => x.NZBurl == r.NZBurl && x.Status == "Snatched") = true :=
            List.any_eq_true.mpr ⟨r, hr, beq_and_url_self r hs⟩
          refine ⟨fun x => if x.NZBurl == r.NZBurl && x.Status == "Snatched"
            then { x with Status := "Failed", NZBDate := nowT } else x, ?_, ?_, ?_⟩
          · simp [processDir.handleOutcome, processDir.markFailed, upsertRows, hany]
          · refine Or.inr (Or.inr ?_)
            simp [hs]
          · intro x hx
            by_cases h : (x.NZBurl == r.NZBurl && x.Status == "Snatched") = true
            · simp [h] at hx
            · simp [h] at hx
              exact Or.inl hx

/-- Witness for C1 at a concrete store: one snatched row, successful commit. -/
theorem processDir_status_after_pass_witness :
    ∃ f : WantedRow → WantedRow,
      (processDir.handleOutcome ⟨[⟨"u", "b", "", "Snatched", "d"⟩], []⟩
          ⟨"u", "b", "", "Snatched", "d"⟩ "eBook" "t" (.commit true)).wanted =
        [(⟨"u", "b", "", "Snatched", "d"⟩ : WantedRow)].map f ∧
      ((f ⟨"u", "b", "", "Snatched", "d"⟩).Status = "Snatched" ∨
       (f ⟨"u", "b", "", "Snatched", "d"⟩).Status = "Processed" ∨
       (f ⟨"u", "b", "", "Snatched", "d"⟩).Status = "Failed") ∧
      ∀ x : WantedRow, (f x).Status = "Processed" →
        x.Status = "Processed" ∨ processDir.ReqOutcome.commit true = .commit true :=
  processDir_status_after_pass ⟨[⟨"u", "b", "", "Snatched", "d"⟩], []⟩
    ⟨"u", "b", "", "Snatched", "d"⟩ "eBook" "t" (.commit true) (by simp) rfl

/-! ## C2: commit failure and library-item status -/

/-- C2 counterexample: a different request (`u1`) for the same BookID has
already reached `Processed` (and the book is `Open`), yet the failed commit of
the competing request `u2` still downgrades `books.status` to `Wanted` —
refuting the claim's "unless a different request record for the same library
item has already reached Processed". -/
theorem commit_failure_downgrades_counterexample :
    (⟨"u1", "b1", "eBook", "Processed", "t0"⟩ : WantedRow).Status = "Processed" ∧
    (⟨"u1", "b1", "eBook", "Processed", "t0"⟩ : WantedRow).BookID =
      (⟨"u2", "b1", "eBook", "Snatched", "t0"⟩ : WantedRow).BookID ∧
    (⟨"u1", "b1", "eBook", "Processed", "t0"⟩ : WantedRow).NZBurl ≠
      (⟨"u2", "b1", "eBook", "Snatched", "t0"⟩ : WantedRow).NZBurl ∧
    (processDir.handleOutcome
        ⟨[⟨"u1", "b1", "eBook", "Processed", "t0"⟩, ⟨"u2", "b1", "eBook", "Snatched", "t0"⟩],
         [⟨"b1", "Open", "Skipped"⟩]⟩
        ⟨"u2", "b1", "eBook", "Snatched", "t0"⟩ "eBook" "t1" (.commit false)).books =
      [⟨"b1", "Wanted", "Skipped"⟩] := by
  decide

/-- C2 amended: on commit failure in `processDir`, the request's row becomes
`Failed` with the failure timestamp, and the library item's status for the
media kind (`books.status` for eBook, `books.audiostatus` for AudioBook) is
reverted to `Wanted` unconditionally — even when a different request record
for the same item has already reached `Processed`; only the stale-task sweep
guards its revert on the status still being `Snatched`. -/
theorem commit_failure_reverts_unconditionally (st : DBState) (r : WantedRow)
    (bt nowT : String) (hr : r ∈ st.wanted) (hs : r.Status = "Snatched") :
    ∃ f : WantedRow → WantedRow,
      (processDir.handleOutcome st r bt nowT (.commit false)).wanted = st.wanted.map f ∧
      (f r).Status = "Failed" ∧ (f r).NZBDate = nowT ∧
      (bt = "eBook" → ∀ b ∈ st.books, b.BookID = r.BookID →
        { b with status := "Wanted" } ∈
          (processDir.handleOutcome st r bt nowT (.commit false)).books) ∧
      (bt = "AudioBook" → ∀ b ∈ st.books, b.BookID = r.BookID →
        { b with audiostatus := "Wanted" } ∈
          (processDir.handleOutcome st r bt nowT (.commit false)).books) := by
  have hany : st.wanted.any
      (fun x => x.NZBurl == r.NZBurl && x.Status == "Snatched") = true :=
    List.any_eq_true.mpr ⟨r, hr, beq_and_url_self r hs⟩
  refine ⟨fun x => if x.NZBurl == r.NZBurl && x.Status == "Snatched"
    then { x with Status := "Failed", NZBDate := nowT } else x, ?_, ?_, ?_, ?_, ?_⟩
  · simp [processDir.handleOutcome, processDir.markFailed, upsertRows, hany]
  · simp [hs]
  · simp [hs]
  · intro hbt b hb hbid
    have : ({ b with status := "Wanted" } : BookRow) =
        (fun c => if c.BookID == r.BookID then { c with status := "Wanted" } else c) b := by
      simp [hbid]
    rw [this]
    simp only [processDir.handleOutcome, processDir.revertBooks, hbt]
    simpa using List.mem_map_of_mem _ hb
  · intro hbt b hb hbid
    have : ({ b with audiostatus := "Wanted" } : BookRow) =
        (fun c => if c.BookID == r.BookID then { c with audiostatus := "Wanted" } else c) b := by
      simp [hbid]
    rw [this]
    simp only [processDir.handleOutcome, processDir.revertBooks, hbt]
    simpa using List.mem_map_of_mem _ hb

/-- Witness for the amended C2 at a concrete store. -/
theorem commit_failure_reverts_unconditionally_witness :
    ∃ f : WantedRow → WantedRow,
      (processDir.handleOutcome ⟨[⟨"u", "b", "eBook", "Snatched", "d"⟩], [⟨"b", "Open", "x"⟩]⟩
          ⟨"u", "b", "eBook", "Snatched", "d"⟩ "eBook" "t" (.commit false)).wanted =
        [(⟨"u", "b", "eBook", "Snatched", "d"⟩ : WantedRow)].map f ∧
      (f ⟨"u", "b", "eBook", "Snatched", "d"⟩).Status = "Failed" ∧
      (f ⟨"u", "b", "eBook", "Snatched", "d"⟩).NZBDate = "t" ∧
      ("eBook" = "eBook" → ∀ b ∈ [(⟨"b", "Open", "x"⟩ : BookRow)], b.BookID = "b" →
        { b with status := "Wanted" } ∈
          (processDir.handleOutcome ⟨[⟨"u", "b", "eBook", "Snatched", "d"⟩], [⟨"b", "Open", "x"⟩]⟩
              ⟨"u", "b", "eBook", "Snatched", "d"⟩ "eBook" "t" (.commit false)).books) ∧
      ("eBook" = "AudioBook" → ∀ b ∈ [(⟨"b", "Open", "x"⟩ : BookRow)], b.BookID = "b" →
        { b with audiostatus := "Wanted" } ∈
          (processDir.handleOutcome ⟨[⟨"u", "b", "eBook", "Snatched", "d"⟩], [⟨"b", "Open", "x"⟩]⟩
              ⟨"u", "b", "eBook", "Snatched", "d"⟩ "eBook" "t" (.commit false)).books) :=
  commit_failure_reverts_unconditionally
    ⟨[⟨"u", "b", "eBook", "Snatched", "d"⟩], [⟨"b", "Open", "x"⟩]⟩
    ⟨"u", "b", "eBook", "Snatched", "d"⟩ "eBook" "t" (by simp) rfl

/-! ## C3: keying of the Snatched-to-Processed transition -/

theorem countP_le_one_of_nodup_map {α β : Type} [DecidableEq β] (f : α → β) (u : β)
    (p : α → Bool) (himp : ∀ a, p a = true → f a = u) :
    ∀ l : List α, (l.map f).Nodup → l.countP p ≤ 1 := by
  intro l
  induction l with
  | nil => intro _; simp
  | cons a l ih =>
      intro h
      rw [List.map_cons, List.nodup_cons] at h
      obtain ⟨hna, hnd⟩ := h
      by_cases ha : p a = true
      · have hz : l.countP p = 0 := by
          rw [List.countP_eq_zero]
          intro x hx hpx
          have hm : f x ∈ l.map f := List.mem_map_of_mem f hx
          rw [himp x hpx, ← himp a ha] at hm
          exact hna hm
        simp [List.countP_cons, ha, hz]
      · have := ih hnd
        simp only [List.countP_cons, if_neg ha]
        omega

/-- C3 counterexample: two snatched rows for the same BookID with *different*
download URLs (an ebook snatch and an audiobook snatch); the `import_book`
success update, keyed by BookID alone, marks both rows `Processed`, so the
single successful commit overwrites the competing row's `Snatched` status. -/
theorem import_book_overwrites_counterexample :
    (⟨"u1", "b1", "eBook", "Snatched", "t0"⟩ : WantedRow).NZBurl ≠
      (⟨"u2", "b1", "AudioBook", "Snatched", "t0"⟩ : WantedRow).NZBurl ∧
    (import_book.markProcessedByBookID
        [⟨"u1", "b1", "eBook", "Snatched", "t0"⟩, ⟨"u2", "b1", "AudioBook", "Snatched", "t0"⟩]
        "b1" "t1").map (fun r => r.Status) = ["Processed", "Processed"] := by
  decide

/-- C3 amended: in `processDir`, the success update is keyed by the request's
download URL and its current `Snatched` status, so rows with a different URL
or a non-`Snatched` status are untouched and — download URLs being unique
across rows — at most one row can transition `Snatched → Processed` per URL;
in `import_book`, however, the success update is keyed by BookID alone, so
every snatched row with that BookID (including a competing snatch of the
other media kind) is marked `Processed`. -/
theorem processed_update_keying (tbl : List WantedRow) (url bid nowT : String)
    (hnd : (tbl.map (fun r => r.NZBurl)).Nodup) :
    (∀ x ∈ tbl, (x.NZBurl ≠ url ∨ x.Status ≠ "Snatched") →
      x ∈ processDir.markProcessed tbl url nowT) ∧
    tbl.countP (fun r => r.NZBurl == url && r.Status == "Snatched") ≤ 1 ∧
    (∀ x ∈ tbl, x.BookID = bid → x.Status = "Snatched" →
      { x with Status := "Processed", NZBDate := nowT } ∈
        import_book.markProcessedByBookID tbl bid nowT) := by
  refine ⟨?_, ?_, ?_⟩
  · intro x hx hne
    unfold processDir.markProcessed upsertRows
    have hpx : (x.NZBurl == url && x.Status == "Snatched") = false := by
      rcases hne with h | h
      · simp [h]
      · simp [h]
    by_cases hany : (tbl.any fun r => r.NZBurl == url && r.Status == "Snatched") = true
    · rw [if_pos hany]
      have : x = (fun r => if r.NZBurl == url && r.Status == "Snatched"
          then { r with Status := "Processed", NZBDate := nowT } else r) x := by
        simp [hpx]
      rw [this]
      exact List.mem_map_of_mem _ hx
    · rw [if_neg hany]
      exact List.mem_append_left _ hx
  · exact countP_le_one_of_nodup_map (fun r => r.NZBurl) url _
      (fun a ha => by
        have := (Bool.and_eq_true _ _).mp ha
        exact eq_of_beq this.1) tbl hnd
  · intro x hx hbid hst
    unfold import_book.markProcessedByBookID
    have hguard : (tbl.any fun r => r.BookID == bid && r.Status == "Snatched") = true :=
      List.any_eq_true.mpr ⟨x, hx, by simp [hbid, hst]⟩
    rw [if_pos hguard]
    unfold upsertRows
    have hany2 : (tbl.any fun r => r.BookID == bid) = true :=
      List.any_eq_true.mpr ⟨x, hx, by simp [hbid]⟩
    rw [if_pos hany2]
    have : ({ x with Status := "Processed", NZBDate := nowT } : WantedRow) =
        (fun r => if r.BookID == bid
          then { r with Status := "Processed", NZBDate := nowT } else r) x := by
      simp [hbid]
    rw [this]
    exact List.mem_map_of_mem _ hx

/-- Witness for the amended C3 at a concrete table. -/
theorem processed_update_keying_witness :
    (∀ x ∈ [(⟨"u1", "b1", "eBook", "Snatched", "t0"⟩ : WantedRow)],
      (x.NZBurl ≠ "u9" ∨ x.Status ≠ "Snatched") →
      x ∈ processDir.markProcessed [⟨"u1", "b1", "eBook", "Snatched", "t0"⟩] "u9" "t1") ∧
    [(⟨"u1", "b1", "eBook", "Snatched", "t0"⟩ : WantedRow)].countP
      (fun r => r.NZBurl == "u9" && r.Status == "Snatched") ≤ 1 ∧
    (∀ x ∈ [(⟨"u1", "b1", "eBook", "Snatched", "t0"⟩ : WantedRow)],
      x.BookID = "b1" → x.Status = "Snatched" →
      { x with Status := "Processed", NZBDate := "t1" } ∈
        import_book.markProcessedByBookID [⟨"u1", "b1", "eBook", "Snatched", "t0"⟩] "b1" "t1") :=
  processed_update_keying [⟨"u1", "b1", "eBook", "Snatched", "t0"⟩] "u9" "b1" "t1" (by simp)

/-! ## C5: stale-task sweep -/

/-- C5 counterexample: a record still `Snatched` whose age (100 hours) is far
past the configured maximum (24 hours) but whose BookID is the literal
`"unknown"` is not force-failed at all: the store is untouched, the row stays
`Snatched`, and `delete_task` is never invoked — refuting the claim's "for
every wanted record still in status Snatched whose age reaches the configured
maximum task age". -/
theorem staleSweep_unknown_counterexample :
    staleSweep.staleHours (100 * 3600) (some 0) ≥ 24 ∧
    (⟨"u1", "unknown", "eBook", "Snatched", "t"⟩ : WantedRow).Status = "Snatched" ∧
    staleSweep.sweepOne ⟨[⟨"u1", "unknown", "eBook", "Snatched", "t"⟩], []⟩
        ⟨"u1", "unknown", "eBook", "Snatched", "t"⟩ 24 (100 * 3600) (some 0) true =
      (⟨[⟨"u1", "unknown", "eBook", "Snatched", "t"⟩], []⟩, false) := by
  decide

/-- C5 amended: for every wanted record still `Snatched` whose age reaches the
configured maximum task age **and whose BookID is not the literal
`"unknown"`**, the sweep force-fails it: every wanted row with that BookID
becomes `Failed`, the library item's status for the media kind reverts to
`Wanted` only where it is still `Snatched`, `delete_task` is invoked, and the
store's outcome is independent of the adapter's result (adapter failures are
caught and logged inside `delete_task`, never fatal to the sweep). -/
theorem staleSweep_force_fails (st : DBState) (r : WantedRow) (taskAge nowT : Nat)
    (snatchT : Option Nat) (a : Bool) (hage : taskAge ≠ 0)
    (hstale : staleSweep.staleHours nowT snatchT ≥ taskAge) (hid : r.BookID ≠ "unknown") :
    (staleSweep.sweepOne st r taskAge nowT snatchT a).2 = true ∧
    (∀ w ∈ st.wanted, w.BookID = r.BookID →
      { w with Status := "Failed" } ∈ (staleSweep.sweepOne st r taskAge nowT snatchT a).1.wanted) ∧
    (∀ w ∈ st.wanted, w.BookID ≠ r.BookID →
      w ∈ (staleSweep.sweepOne st r taskAge nowT snatchT a).1.wanted) ∧
    (bookTypeOf r.AuxInfo = "eBook" → ∀ b ∈ st.books, b.BookID = r.BookID →
      (if b.status = "Snatched" then { b with status := "Wanted" } else b) ∈
        (staleSweep.sweepOne st r taskAge nowT snatchT a).1.books) ∧
    (bookTypeOf r.AuxInfo = "AudioBook" → ∀ b ∈ st.books, b.BookID = r.BookID →
      (if b.audiostatus = "Snatched" then { b with audiostatus := "Wanted" } else b) ∈
        (staleSweep.sweepOne st r taskAge nowT snatchT a).1.books) ∧
    (∀ a2 : Bool, staleSweep.sweepOne st r taskAge nowT snatchT a =
      staleSweep.sweepOne st r taskAge nowT snatchT a2) := by
  have hcond : taskAge ≠ 0 ∧ staleSweep.staleHours nowT snatchT ≥ taskAge := ⟨hage, hstale⟩
  refine ⟨?_, ?_, ?_, ?_, ?_, fun a2 => rfl⟩
  · simp [staleSweep.sweepOne, if_pos hcond, hid]
  · intro w hw hbid
    simp only [staleSweep.sweepOne, if_pos hcond, if_pos hid]
    have : ({ w with Status := "Failed" } : WantedRow) =
        (fun x => if x.BookID == r.BookID then { x with Status := "Failed" } else x) w := by
      simp [hbid]
    rw [this]
    exact List.mem_map_of_mem _ hw
  · intro w hw hbid
    simp only [staleSweep.sweepOne, if_pos hcond, if_pos hid]
    have : w = (fun x => if x.BookID == r.BookID then { x with Status := "Failed" } else x) w := by
      simp [hbid]
    rw [this]
    exact List.mem_map_of_mem _ hw
  · intro hbt b hb hbid
    simp only [staleSweep.sweepOne, if_pos hcond, if_pos hid, hbt]
    have : (if b.status = "Snatched" then { b with status := "Wanted" } else b) =
        (fun x => if x.BookID == r.BookID && x.status == "Snatched"
          then { x with status := "Wanted" } else x) b := by
      by_cases hbs : b.status = "Snatched"
      · simp [hbs, hbid]
      · simp [hbs, hbid]
    rw [this]
    simpa using List.mem_map_of_mem _ hb
  · intro hbt b hb hbid
    simp only [staleSweep.sweepOne, if_pos hcond, if_pos hid, hbt]
    have hne : bookTypeOf r.AuxInfo ≠ "eBook" := by
      rw [hbt]; decide
    have : (if b.audiostatus = "Snatched" then { b with audiostatus := "Wanted" } else b) =
        (fun x => if x.BookID == r.BookID && x.audiostatus == "Snatched"
          then { x with audiostatus := "Wanted" } else x) b := by
      by_cases hbs : b.audiostatus = "Snatched"
      · simp [hbs, hbid]
      · simp [hbs, hbid]
    rw [this]
    simpa [hne] using List.mem_map_of_mem _ hb

/-- Witness for the amended C5 at a concrete store. -/
theorem staleSweep_force_fails_witness :
    (staleSweep.sweepOne ⟨[⟨"u", "b", "eBook", "Snatched", "t"⟩], [⟨"b", "Snatched", "x"⟩]⟩
        ⟨"u", "b", "eBook", "Snatched", "t"⟩ 24 (100 * 3600) (some 0) true).2 = true ∧
    (∀ w ∈ [(⟨"u", "b", "eBook", "Snatched", "t"⟩ : WantedRow)], w.BookID = "b" →
      { w with Status := "Failed" } ∈
        (staleSweep.sweepOne ⟨[⟨"u", "b", "eBook", "Snatched", "t"⟩], [⟨"b", "Snatched", "x"⟩]⟩
            ⟨"u", "b", "eBook", "Snatched", "t"⟩ 24 (100 * 3600) (some 0) true).1.wanted) ∧
    (∀ w ∈ [(⟨"u", "b", "eBook", "Snatched", "t"⟩ : WantedRow)], w.BookID ≠ "b" →
      w ∈ (staleSweep.sweepOne ⟨[⟨"u", "b", "eBook", "Snatched", "t"⟩], [⟨"b", "Snatched", "x"⟩]⟩
            ⟨"u", "b", "eBook", "Snatched", "t"⟩ 24 (100 * 3600) (some 0) true).1.wanted) ∧
    (bookTypeOf "eBook" = "eBook" → ∀ b ∈ [(⟨"b", "Snatched", "x"⟩ : BookRow)], b.BookID = "b" →
      (if b.status = "Snatched" then { b with status := "Wanted" } else b) ∈
        (staleSweep.sweepOne ⟨[⟨"u", "b", "eBook", "Snatched", "t"⟩], [⟨"b", "Snatched", "x"⟩]⟩
            ⟨"u", "b", "eBook", "Snatched", "t"⟩ 24 (100 * 3600) (some 0) true).1.books) ∧
    (bookTypeOf "eBook" = "AudioBook" → ∀ b ∈ [(⟨"b", "Snatched", "x"⟩ : BookRow)], b.BookID = "b" →
      (if b.audiostatus = "Snatched" then { b with audiostatus := "Wanted" } else b) ∈
        (staleSweep.sweepOne ⟨[⟨"u", "b", "eBook", "Snatched", "t"⟩], [⟨"b", "Snatched", "x"⟩]⟩
            ⟨"u", "b", "eBook", "Snatched", "t"⟩ 24 (100 * 3600) (some 0) true).1.books) ∧
    (∀ a2 : Bool,
      staleSweep.sweepOne ⟨[⟨"u", "b", "eBook", "Snatched", "t"⟩], [⟨"b", "Snatched", "x"⟩]⟩
          ⟨"u", "b", "eBook", "Snatched", "t"⟩ 24 (100 * 3600) (some 0) true =
        staleSweep.sweepOne ⟨[⟨"u", "b", "eBook", "Snatched", "t"⟩], [⟨"b", "Snatched", "x"⟩]⟩
          ⟨"u", "b", "eBook", "Snatched", "t"⟩ 24 (100 * 3600) (some 0) a2) :=
  staleSweep_force_fails ⟨[⟨"u", "b", "eBook", "Snatched", "t"⟩], [⟨"b", "Snatched", "x"⟩]⟩
    ⟨"u", "b", "eBook", "Snatched", "t"⟩ 24 (100 * 3600) (some 0) true
    (by decide) (by decide) (by decide)

/-! ## C4: quarantine marker uniqueness -/

theorem fsq_lookup_rmtree_self (fs : List fsq.Entry) (n : String) :
    fsq.lookupName (fsq.rmtree fs n) n = none := by
  unfold fsq.lookupName fsq.rmtree
  rw [List.find?_eq_none]
  intro e he
  have h2 := (List.mem_filter.mp he).2
  simpa using h2

theorem fsq_lookup_rmtree_ne (fs : List fsq.Entry) (n m : String) (h : m ≠ n) :
    fsq.lookupName (fsq.rmtree fs n) m = fsq.lookupName fs m := by
  unfold fsq.lookupName fsq.rmtree
  induction fs with
  | nil => rfl
  | cons e fs ih =>
      by_cases he : e.name = n
      · have h2 : (n == m) = false := by
          rw [beq_eq_false_iff_ne]
          exact Ne.symm h
        simp [List.filter_cons, he, List.find?_cons, h2, ih]
      · by_cases hm : (e.name == m) = true
        · simp [List.filter_cons, he, List.find?_cons, hm]
        · simp [List.filter_cons, he, List.find?_cons, hm, ih]

theorem fsq_countP_rmtree (fs : List fsq.Entry) (n : String) :
    (fsq.rmtree fs n).countP (fun e => e.name == n) = 0 := by
  unfold fsq.rmtree
  rw [List.countP_eq_zero]
  intro e he
  have h2 := (List.mem_filter.mp he).2
  simpa using h2

/-- C4: after quarantine handling of a failed source `p`, the listing holds the
quarantine sibling `p ++ ".fail"` exactly once, its content is the failed
source itself (any pre-existing quarantine directory was purged before the
rename, so the source is never nested inside a stale marker), and `p` itself
is gone — so repeated failures of the same path never accumulate more than
one quarantine sibling. -/
theorem quarantine_single_marker (fs : List fsq.Entry) (e : fsq.Entry) (p : String)
    (he : fsq.lookupName fs p = some e) :
    fsq.lookupName (fsq.quarantine fs p) (p ++ ".fail") =
      some { e with name := p ++ ".fail" } ∧
    fsq.lookupName (fsq.quarantine fs p) p = none ∧
    (fsq.quarantine fs p).countP (fun x : fsq.Entry => x.name == p ++ ".fail") = 1 := by
  have h5 : (".fail" : String).length = 5 := rfl
  have hne : p ≠ p ++ ".fail" := by
    intro hp
    have hl := congrArg String.length hp
    rw [String.length_append, h5] at hl
    omega
  have happ : ∀ L : List fsq.Entry,
      fsq.lookupName L (p ++ ".fail") = none →
      fsq.lookupName L p = none →
      L.countP (fun x : fsq.Entry => x.name == p ++ ".fail") = 0 →
      fsq.lookupName (L ++ [{ e with name := p ++ ".fail" }]) (p ++ ".fail") =
        some { e with name := p ++ ".fail" } ∧
      fsq.lookupName (L ++ [{ e with name := p ++ ".fail" }]) p = none ∧
      (L ++ [{ e with name := p ++ ".fail" }]).countP
        (fun x : fsq.Entry => x.name == p ++ ".fail") = 1 := by
    intro L hL1 hL2 hL3
    refine ⟨?_, ?_, ?_⟩
    · unfold fsq.lookupName at hL1 ⊢
      rw [List.find?_append, hL1]
      simp
    · unfold fsq.lookupName at hL2 ⊢
      rw [List.find?_append, hL2]
      simp [Ne.symm hne]
    · rw [List.countP_append, hL3]
      simp
  cases hfail : fsq.lookupName fs (p ++ ".fail") with
  | none =>
      have step : fsq.quarantine fs p =
          fsq.rmtree fs p ++ [{ e with name := p ++ ".fail" }] := by
        unfold fsq.quarantine fsq.move
        simp only [hfail, he]
      rw [step]
      refine happ _ ?_ (fsq_lookup_rmtree_self fs p) ?_
      · rw [fsq_lookup_rmtree_ne fs p (p ++ ".fail") (Ne.symm hne)]
        exact hfail
      · rw [List.countP_eq_zero]
        intro x hx hpx
        have hx2 : x ∈ fs := List.mem_of_mem_filter hx
        have hnone : ∀ y ∈ fs, ¬(y.name == p ++ ".fail") = true := by
          have := hfail
          unfold fsq.lookupName at this
          exact List.find?_eq_none.mp this
        exact hnone x hx2 hpx
  | some d =>
      by_cases hdir : d.isdir = true
      · have step : fsq.quarantine fs p =
            fsq.rmtree (fsq.rmtree fs (p ++ ".fail")) p ++
              [{ e with name := p ++ ".fail" }] := by
          unfold fsq.quarantine fsq.move
          simp only [hfail, hdir, if_true,
            fsq_lookup_rmtree_ne fs (p ++ ".fail") p hne, he,
            fsq_lookup_rmtree_self fs (p ++ ".fail")]
        rw [step]
        refine happ _ ?_
          (fsq_lookup_rmtree_self (fsq.rmtree fs (p ++ ".fail")) p) ?_
        · rw [fsq_lookup_rmtree_ne (fsq.rmtree fs (p ++ ".fail")) p (p ++ ".fail")
            (Ne.symm hne)]
          exact fsq_lookup_rmtree_self fs (p ++ ".fail")
        · rw [List.countP_eq_zero]
          intro x hx hpx
          have hx2 : x ∈ fsq.rmtree fs (p ++ ".fail") := List.mem_of_mem_filter hx
          have hx3 := (List.mem_filter.mp hx2).2
          simp only [bne_iff_ne, ne_eq] at hx3
          exact hx3 (by simpa using hpx)
      · rw [Bool.not_eq_true] at hdir
        have step : fsq.quarantine fs p =
            fsq.rmtree (fsq.rmtree fs p) (p ++ ".fail") ++
              [{ e with name := p ++ ".fail" }] := by
          unfold fsq.quarantine fsq.move
          simp only [hfail, hdir, he, Bool.false_eq_true, if_false]
        rw [step]
        refine happ _
          (fsq_lookup_rmtree_self (fsq.rmtree fs p) (p ++ ".fail")) ?_
          (fsq_countP_rmtree (fsq.rmtree fs p) (p ++ ".fail"))
        rw [fsq_lookup_rmtree_ne (fsq.rmtree fs p) (p ++ ".fail") p hne]
        exact fsq_lookup_rmtree_self fs p

/-- Witness for C4 at a concrete listing: the source directory `dl/book` and a
stale quarantine directory `dl/book.fail` from an earlier failure. -/
theorem quarantine_single_marker_witness :
    fsq.lookupName (fsq.quarantine
        [⟨"dl/book", true, 7⟩, ⟨"dl/book.fail", true, 3⟩] "dl/book") ("dl/book" ++ ".fail") =
      some ⟨"dl/book" ++ ".fail", true, 7⟩ ∧
    fsq.lookupName (fsq.quarantine
        [⟨"dl/book", true, 7⟩, ⟨"dl/book.fail", true, 3⟩] "dl/book") "dl/book" = none ∧
    (fsq.quarantine [⟨"dl/book", true, 7⟩, ⟨"dl/book.fail", true, 3⟩] "dl/book").countP
      (fun x : fsq.Entry => x.name == "dl/book" ++ ".fail") = 1 :=
  quarantine_single_marker [⟨"dl/book", true, 7⟩, ⟨"dl/book.fail", true, 3⟩]
    ⟨"dl/book", true, 7⟩ "dl/book" (by decide)

/-! ## C7 and C10: archive extraction -/

theorem unpack_foldl_from_found (dd title : String) (p : String → Bool)
    (td : String) (htd : td ≠ "") (mk : Nat) :
    ∀ (es : List String) (ex : List String),
      es.foldl (unpack_archive.step dd title p) (⟨td, ex, mk⟩, true) =
        (⟨td, ex ++ es.filter p, mk⟩, true) := by
  intro es
  induction es with
  | nil => intro ex; simp
  | cons a es ih =>
      intro ex
      by_cases hp : p a = true
      · rw [List.foldl_cons]
        have hstep : unpack_archive.step dd title p (⟨td, ex, mk⟩, true) a =
            (⟨td, ex ++ [a], mk⟩, true) := by
          simp [unpack_archive.step, hp, htd]
        rw [hstep, ih (ex ++ [a])]
        simp [List.filter_cons, hp]
      · rw [List.foldl_cons]
        have hstep : unpack_archive.step dd title p (⟨td, ex, mk⟩, true) a =
            (⟨td, ex, mk⟩, true) := by
          simp [unpack_archive.step, hp]
        rw [hstep, ih ex]
        simp [List.filter_cons, hp]

theorem unpack_dirname_ne_empty (dd title : String) :
    dd ++ "/" ++ title ++ ".unpack" ≠ "" := by
  intro hc
  have hlen := congrArg String.length hc
  have hslash : ("/" : String).length = 1 := rfl
  have hunp : (".unpack" : String).length = 7 := rfl
  have hnil : ("" : String).length = 0 := rfl
  rw [String.length_append, String.length_append, String.length_append,
    hslash, hunp, hnil] at hlen
  omega

theorem unpack_runEntries_eq (dd title : String) (p : String → Bool) (pre : Bool) :
    ∀ es : List String,
      unpack_archive.runEntries dd title p pre es =
        (if (es.filter p).isEmpty then (⟨"", [], 0⟩, pre)
         else (⟨dd ++ "/" ++ title ++ ".unpack", es.filter p, if pre then 0 else 1⟩, true)) := by
  intro es
  induction es with
  | nil => simp [unpack_archive.runEntries]
  | cons a es ih =>
      by_cases hp : p a = true
      · unfold unpack_archive.runEntries
        rw [List.foldl_cons]
        have hstep : unpack_archive.step dd title p (⟨"", [], 0⟩, pre) a =
            (⟨dd ++ "/" ++ title ++ ".unpack", [a], if pre then 0 else 1⟩, true) := by
          simp [unpack_archive.step, hp]
        rw [hstep,
          unpack_foldl_from_found dd title p _ (unpack_dirname_ne_empty dd title) _ es [a]]
        simp [List.filter_cons, hp]
      · unfold unpack_archive.runEntries
        rw [List.foldl_cons]
        have hstep : unpack_archive.step dd title p (⟨"", [], 0⟩, pre) a =
            (⟨"", [], 0⟩, pre) := by
          simp [unpack_archive.step, hp]
        rw [hstep]
        unfold unpack_archive.runEntries at ih
        rw [ih]
        simp [List.filter_cons, hp]

theorem unpack_entries_result (dd title : String) (p : String → Bool) (pre : Bool)
    (es : List String) :
    (unpack_archive.runEntries dd title p pre es).1.extracted = es.filter p ∧
    ((unpack_archive.runEntries dd title p pre es).1.targetdir = "" ↔
      (es.filter p).isEmpty = true) ∧
    (unpack_archive.runEntries dd title p pre es).1.mkdirCount =
      (if (es.filter p).isEmpty then 0 else if pre then 0 else 1) := by
  rw [unpack_runEntries_eq]
  by_cases hemp : (es.filter p).isEmpty = true
  · rw [if_pos hemp]
    refine ⟨(List.isEmpty_iff.mp hemp).symm, by simp [hemp], by simp [hemp]⟩
  · rw [if_neg hemp]
    refine ⟨rfl, ?_, by simp [hemp]⟩
    simp only [hemp]
    constructor
    · intro hc
      exact absurd hc (unpack_dirname_ne_empty dd title)
    · intro hc
      cases hc

/-- C7: for every file handed to `unpack_archive`, the unpack directory is
created at most once, and only when the archive holds at least one payload
entry; exactly the entries satisfying the payload predicate are extracted
(so a zip of `book.epub` and `readme.txt` yields only `book.epub`); and the
returned name is the empty string exactly when the file is not a recognised
archive or no payload entry exists. -/
theorem unpack_archive_payload_only (kind : unpack_archive.ArchiveKind)
    (dd title : String) (p : String → Bool) (pre : Bool) :
    (unpack_archive.unpack kind dd title p pre).mkdirCount ≤ 1 ∧
    (match unpack_archive.entriesOf kind with
     | none => unpack_archive.unpack kind dd title p pre = ⟨"", [], 0⟩
     | some es =>
        (unpack_archive.unpack kind dd title p pre).extracted = es.filter p ∧
        ((unpack_archive.unpack kind dd title p pre).targetdir = "" ↔
          (es.filter p).isEmpty = true) ∧
        (unpack_archive.unpack kind dd title p pre).mkdirCount =
          (if (es.filter p).isEmpty then 0 else if pre then 0 else 1)) := by
  cases kind with
  | notFile => exact ⟨by simp [unpack_archive.unpack], rfl⟩
  | unrecognized => exact ⟨by simp [unpack_archive.unpack], rfl⟩
  | zip es =>
      have h := unpack_entries_result dd title p pre es
      refine ⟨?_, h⟩
      have := h.2.2
      show (unpack_archive.runEntries dd title p pre es).1.mkdirCount ≤ 1
      rw [this]
      by_cases hemp : (es.filter p).isEmpty = true
      · simp [hemp]
      · by_cases hpre : pre = true
        · simp [hemp, hpre]
        · simp [hemp, hpre]
  | tar es =>
      have h := unpack_entries_result dd title p pre es
      refine ⟨?_, h⟩
      have := h.2.2
      show (unpack_archive.runEntries dd title p pre es).1.mkdirCount ≤ 1
      rw [this]
      by_cases hemp : (es.filter p).isEmpty = true
      · simp [hemp]
      · by_cases hpre : pre = true
        · simp [hemp, hpre]
        · simp [hemp, hpre]
  | rar es =>
      have h := unpack_entries_result dd title p pre es
      refine ⟨?_, h⟩
      have := h.2.2
      show (unpack_archive.runEntries dd title p pre es).1.mkdirCount ≤ 1
      rw [this]
      by_cases hemp : (es.filter p).isEmpty = true
      · simp [hemp]
      · by_cases hpre : pre = true
        · simp [hemp, hpre]
        · simp [hemp, hpre]

/-- C10: on a path that is not an existing regular file (a directory or a
nonexistent path, `os.path.isfile` false), `unpack_archive` returns the empty
string having extracted nothing and created no directory. -/
theorem unpack_archive_not_file (dd title : String) (p : String → Bool) (pre : Bool) :
    unpack_archive.unpack .notFile dd title p pre = ⟨"", [], 0⟩ :=
  rfl

/-! ## C8: processDestination with no matching file -/

/-- C8: when the source directory holds no file of the wanted media type under
the active selection policy, `processDestination` returns failure with a
human-readable message and performs no filesystem action — whatever the rest
of the function would have done. -/
theorem processDestination_notfound_untouched (cfg : procDest.Config) (pp_path : String)
    (files : List String) (bookname : Option String) (booktypeIn : String)
    (rest : procDest.Outcome)
    (h : ∀ f ∈ files, procDest.is_valid_booktype cfg f
        (strLower (if bookname.isNone then "mag" else booktypeIn)) = false) :
    procDest.processDestination cfg pp_path files bookname booktypeIn rest =
      { success := false,
        message := "Unable to locate a valid filetype ("
          ++ strLower (if bookname.isNone then "mag" else booktypeIn) ++ ") in " ++ pp_path
          ++ ", leaving for manual processing",
        actions := [] } := by
  have hany : files.any (fun f => procDest.is_valid_booktype cfg f
      (strLower (if bookname.isNone then "mag" else booktypeIn))) = false := by
    rw [List.any_eq_false]
    intro f hf
    simp only [Bool.not_eq_true]
    exact h f hf
  have hbm : procDest.bestmatchOf cfg
      (strLower (if bookname.isNone then "mag" else booktypeIn)) files = "" := by
    unfold procDest.bestmatchOf
    by_cases hcond : ((strLower (if bookname.isNone then "mag" else booktypeIn) == "ebook")
        && cfg.one_format) = true
    · rw [if_pos hcond]
      have hfind : cfg.ebook_type.find? (fun btype => files.any (fun fname =>
          let extn := procDest.lstripDot (procDest.extnOf fname)
          extn != "" && strLower extn == btype)) = none := by
        rw [List.find?_eq_none]
        intro btype hbtype hany2
        obtain ⟨fname, hfname, hmatch⟩ := List.any_eq_true.mp hany2
        have hm2 := (Bool.and_eq_true _ _).mp hmatch
        have hbeq : strLower (procDest.lstripDot (procDest.extnOf fname)) = btype :=
          eq_of_beq hm2.2
        have hbte : strLower (if bookname.isNone then "mag" else booktypeIn) = "ebook" :=
          eq_of_beq ((Bool.and_eq_true _ _).mp hcond).1
        have hvalid : procDest.is_valid_booktype cfg fname
            (strLower (if bookname.isNone then "mag" else booktypeIn)) = true := by
          unfold procDest.is_valid_booktype
          rw [hbte, hbeq]
          simpa using hbtype
        rw [h fname hfname] at hvalid
        cases hvalid
      rw [hfind]
    · rw [if_neg hcond]
  unfold procDest.processDestination
  simp only [hbm, hany]
  rfl

/-- Witness for C8: a source directory holding only `readme.txt` under an
ebook request with ONE_FORMAT active. -/
theorem processDestination_notfound_untouched_witness :
    procDest.processDestination ⟨true, ["epub", "mobi"], ["mp3"], ["pdf"]⟩ "dl/book"
        ["readme.txt"] (some "A Book") "eBook"
        ⟨true, "committed", ["copy readme.txt"]⟩ =
      { success := false,
        message := "Unable to locate a valid filetype ("
          ++ strLower (if (some "A Book" : Option String).isNone then "mag" else "eBook")
          ++ ") in " ++ "dl/book" ++ ", leaving for manual processing",
        actions := [] } :=
  processDestination_notfound_untouched ⟨true, ["epub", "mobi"], ["mp3"], ["pdf"]⟩ "dl/book"
    ["readme.txt"] (some "A Book") "eBook" ⟨true, "committed", ["copy readme.txt"]⟩
    (by decide)

/-! ## C9: Deluge RPC error surfacing -/

/-- C9: in the Deluge daemon RPC client's `call`, a decoded Error message (type
2) always raises — the failure is surfaced, never silently swallowed — and a
decoded Response message (type 1) returns the decoded payload. -/
theorem deluge_call_dispatch {V : Type} (i j : Nat) (rest : List V) (v : V) (t : List V) :
    (∃ reason, DelugeRPC.dispatch ⟨DelugeRPC.RPC_ERROR, i, rest⟩ =
      DelugeRPC.CallResult.raised reason) ∧
    DelugeRPC.dispatch ⟨DelugeRPC.RPC_RESPONSE, j, v :: t⟩ =
      DelugeRPC.CallResult.returned (some v) := by
  exact ⟨⟨"RPC error response", rfl⟩, rfl⟩

/-! ## C6: fuzzy matcher scores identical token multisets at 100 -/

theorem char_eq_of_toNat_eq (a b : Char) (h : a.toNat = b.toNat) : a = b :=
  Char.ext (UInt32.eq_of_val_eq (Fin.eq_of_val_eq h))

theorem fuzz_lexLe_total : ∀ a b : List Char,
    fuzz.lexLe a b = true ∨ fuzz.lexLe b a = true := by
  intro a
  induction a with
  | nil => intro b; exact Or.inl rfl
  | cons x xs ih =>
      intro b
      cases b with
      | nil => exact Or.inr rfl
      | cons y ys =>
          by_cases h1 : x.toNat < y.toNat
          · exact Or.inl (by simp [fuzz.lexLe, h1])
          · by_cases h2 : y.toNat < x.toNat
            · exact Or.inr (by simp [fuzz.lexLe, h2])
            · rcases ih ys with h | h
              · exact Or.inl (by simp [fuzz.lexLe, h1, h2, h])
              · exact Or.inr (by simp [fuzz.lexLe, h1, h2, h])

theorem fuzz_lexLe_trans : ∀ a b c : List Char,
    fuzz.lexLe a b = true → fuzz.lexLe b c = true → fuzz.lexLe a c = true := by
  intro a
  induction a with
  | nil => intro b c _ _; rfl
  | cons x xs ih =>
      intro b c hab hbc
      cases b with
      | nil => simp [fuzz.lexLe] at hab
      | cons y ys =>
          cases c with
          | nil => simp [fuzz.lexLe] at hbc
          | cons z zs =>
              simp only [fuzz.lexLe] at hab hbc ⊢
              by_cases h1 : x.toNat < y.toNat
              · by_cases h2 : y.toNat < z.toNat
                · simp [Nat.lt_trans h1 h2]
                · by_cases h3 : z.toNat < y.toNat
                  · simp [h2, h3] at hbc
                  · have hxz : x.toNat < z.toNat := by omega
                    simp [hxz]
              · by_cases h1b : y.toNat < x.toNat
                · simp [h1, h1b] at hab
                · by_cases h2 : y.toNat < z.toNat
                  · have hxz : x.toNat < z.toNat := by omega
                    simp [hxz]
                  · by_cases h3 : z.toNat < y.toNat
                    · simp [h2, h3] at hbc
                    · have hxz1 : ¬x.toNat < z.toNat := by omega
                      have hxz2 : ¬z.toNat < x.toNat := by omega
                      simp only [if_neg h1, if_neg h1b] at hab
                      simp only [if_neg h2, if_neg h3] at hbc
                      simp only [if_neg hxz1, if_neg hxz2]
                      exact ih ys zs hab hbc

theorem fuzz_lexLe_antisymm : ∀ a b : List Char,
    fuzz.lexLe a b = true → fuzz.lexLe b a = true → a = b := by
  intro a
  induction a with
  | nil =>
      intro b hab hba
      cases b with
      | nil => rfl
      | cons y ys => simp [fuzz.lexLe] at hba
  | cons x xs ih =>
      intro b hab hba
      cases b with
      | nil => simp [fuzz.lexLe] at hab
      | cons y ys =>
          simp only [fuzz.lexLe] at hab hba
          by_cases h1 : x.toNat < y.toNat
          · have h1b : ¬y.toNat < x.toNat := by omega
            simp [h1, h1b] at hba
          · by_cases h2 : y.toNat < x.toNat
            · simp [h1, h2] at hab
            · have hxy : x = y := char_eq_of_toNat_eq x y (by omega)
              simp only [if_neg h1, if_neg h2] at hab hba
              rw [hxy, ih ys hab hba]

theorem fuzz_sortToks_eq_of_perm {l1 l2 : List (List Char)} (h : l1.Perm l2) :
    fuzz.sortToks l1 = fuzz.sortToks l2 := by
  have ht : IsTotal (List Char) (fun x y => fuzz.lexLe x y = true) := ⟨fuzz_lexLe_total⟩
  have htr : IsTrans (List Char) (fun x y => fuzz.lexLe x y = true) :=
    ⟨fun a b c => fuzz_lexLe_trans a b c⟩
  have has : IsAntisymm (List Char) (fun x y => fuzz.lexLe x y = true) :=
    ⟨fun a b => fuzz_lexLe_antisymm a b⟩
  unfold fuzz.sortToks
  exact @List.eq_of_perm_of_sorted _ _ has _ _
    ((List.perm_insertionSort _ l1).trans (h.trans (List.perm_insertionSort _ l2).symm))
    (@List.sorted_insertionSort _ _ _ ht htr l1)
    (@List.sorted_insertionSort _ _ _ ht htr l2)

theorem fuzz_lev_self : ∀ l : List Char, fuzz.lev l l = 0 := by
  intro l
  induction l with
  | nil => simp [fuzz.lev]
  | cons a l ih => simp [fuzz.lev, ih]

theorem fuzz_ratio_self (s : List Char) : fuzz.ratio s s = 100 := by
  by_cases h : s.length + s.length = 0
  · simp [fuzz.ratio, h]
  · have hT : 0 < s.length + s.length := Nat.pos_of_ne_zero h
    simp [fuzz.ratio, h, fuzz_lev_self, Nat.mul_div_cancel_left 100 hT]

theorem fuzz_token_set_ratio_eq_100 (x y : List Char)
    (hxy : fuzz.sortedTokenSet x = fuzz.sortedTokenSet y) :
    fuzz.token_set_ratio x y = 100 := by
  have hfilter1 : (fuzz.sortedTokenSet x).filter
      (fun w => (fuzz.sortedTokenSet x).contains w) = fuzz.sortedTokenSet x := by
    rw [List.filter_eq_self]
    intro w hw
    simpa using hw
  have hfilter2 : (fuzz.sortedTokenSet x).filter
      (fun w => !(fuzz.sortedTokenSet x).contains w) = [] := by
    rw [List.filter_eq_nil_iff]
    intro w hw
    simpa using hw
  simp only [fuzz.token_set_ratio, ← hxy, hfilter1, hfilter2, List.append_nil]
  simp [fuzz_ratio_self]

/-- C6: for every pair of title strings whose normalisations (truncation at
the `" LL.("` marker, underscores to spaces) carry identical multisets of
word tokens in any order, the fuzzy match score is exactly 100. -/
theorem fuzzy_identical_multisets_score_100 (s1 s2 : String)
    (h : (fuzz.tokens (fuzz.normalize s1)).Perm (fuzz.tokens (fuzz.normalize s2))) :
    fuzz.score s1 s2 = 100 := by
  unfold fuzz.score
  apply fuzz_token_set_ratio_eq_100
  unfold fuzz.sortedTokenSet
  exact fuzz_sortToks_eq_of_perm h.dedup

/-- Witness for C6: `"The_Great_Escape"` against a renamed, reordered, tagged
candidate. -/
theorem fuzzy_identical_multisets_score_100_witness :
    (fuzz.tokens (fuzz.normalize "The_Great_Escape")).Perm
      (fuzz.tokens (fuzz.normalize "Escape Great The LL.(123)")) ∧
    fuzz.score "The_Great_Escape" "Escape Great The LL.(123)" = 100 :=
  ⟨by decide,
   fuzzy_identical_multisets_score_100 "The_Great_Escape" "Escape Great The LL.(123)"
     (by decide)⟩
